import Mathlib

/-!
Verification of `src/ah_shell/mod.py`: the filtered directory-tree walker
(`tree`, `should_exclude`, `DEFAULT_EXCLUDE`) and the sibling wrappers
(`execute_command`, `mkdir`, `run_python`).

The Python code is shallowly embedded: the filesystem is a finite tree of
directory entries, `os.walk` (top-down, default `onerror=None`, with in-place
pruning of the yielded `dirs` list) becomes a fuelled structural recursion,
`fnmatch.fnmatch` becomes a whole-string glob matcher, and each subprocess /
exception outcome of the wrappers is an explicit parameter.
-/

/-- The single-quote character (codepoint 39), used in the Python format
strings such as the quotes around the command in the failure messages. -/
def squote : String := String.mk [Char.ofNat 39]

/-- `DEFAULT_EXCLUDE` from `mod.py` line 11: the fixed built-in exclusion
pattern list. None of these patterns contains a wildcard (`*`, `?`) or a
character class (`[`), so the literal/`*`/`?` fragment of `fnmatch`
modelled below covers every pattern this program ever passes to it. -/
def DEFAULT_EXCLUDE : List String :=
  [".git", "node_modules", "dist", "build", "coverage", "__pycache__", ".ipynb_checkpoints"]

/-- Glob matching of a pattern against a whole string, with fuel.
`globGo fuel pat s` follows Python `fnmatch.translate`: the produced regex is
anchored at both ends (`re.match` + `\Z`), so the pattern must match the
ENTIRE string, and `*` matches any run of characters (including `/`).
Each recursive call shrinks `pat.length + s.length`, so fuel
`pat.length + s.length + 1` is always sufficient. -/
def globGo : Nat → List Char → List Char → Bool
  | 0, _, _ => false
  | _ + 1, [], s => s.isEmpty
  | fuel + 1, c :: pat, s =>
    if c = '*' then
      globGo fuel pat s ||
        (match s with
         | [] => false
         | _ :: s2 => globGo fuel (c :: pat) s2)
    else
      match s with
      | [] => false
      | c2 :: s2 => (c = '?' || c = c2) && globGo fuel pat s2

/-- `fnmatch.fnmatch(path, pattern)` on POSIX (`os.path.normcase` is the
identity there): anchored whole-string glob match. Character classes
(`[...]`) are not modelled; no pattern used by this program contains one. -/
def fnmatch (path pattern : String) : Bool :=
  globGo (pattern.toList.length + path.toList.length + 1) pattern.toList path.toList

/-- `should_exclude(path, matches)` from `mod.py` lines 66-67:
`any(fnmatch.fnmatch(path, pattern) for pattern in DEFAULT_EXCLUDE) or matches(path)`
(`m` is the `matches` predicate; `matches` is a reserved word in Lean). -/
def should_exclude (path : String) (m : String → Bool) : Bool :=
  (DEFAULT_EXCLUDE.any fun pattern => fnmatch path pattern) || m path

/-- One filesystem entry. `file` carries its content (read only for the root
`.gitignore`); `deniedDir` is a directory whose enumeration fails
(e.g. permission denied): it is listed by its parent's `scandir`, but
`os.walk` entering it hits the error, which the default `onerror=None`
silently ignores, so it contributes no node. -/
inductive Dirent where
  | file (name : String) (content : String)
  | dir (name : String) (entries : List Dirent)
  | deniedDir (name : String)

mutual

/-- Size of one entry, used as walk fuel (the auto-generated `SizeOf` for this
nested inductive has no executable code). -/
def direntSize : Dirent → Nat
  | .file _ _ => 1
  | .deniedDir _ => 1
  | .dir _ es => 1 + direntListSize es

/-- Total size of a listing. -/
def direntListSize : List Dirent → Nat
  | [] => 0
  | e :: rest => direntSize e + direntListSize rest

end

/-- One node of the result: the `OrderedDict` with keys `root`, `dirs`,
`files` built in `tree.list_dir` (`mod.py` lines 88-92). -/
structure TreeNode where
  root : String
  dirs : List String
  files : List String
deriving Repr, DecidableEq

/-- `posixpath.join(a, b)`: if `b` is absolute it wins; otherwise `b` is
appended to `a` with a separator unless `a` is empty or already ends in one. -/
def pjoin (a b : String) : String :=
  if b.toList.head? = some '/' then b
  else if a = "" then b
  else if a.toList.getLast? = some '/' then a ++ b
  else a ++ "/" ++ b

/-- Split a path string into its non-empty `/`-separated components
(accumulator holds the current component reversed). -/
def splitPathAux : List Char → List Char → List String
  | [], [] => []
  | [], acc => [String.mk acc.reverse]
  | c :: cs, acc =>
    if c = '/' then
      match acc with
      | [] => splitPathAux cs []
      | _ => String.mk acc.reverse :: splitPathAux cs []
    else splitPathAux cs (c :: acc)

/-- Path components of a path string. -/
def splitPath (p : String) : List String :=
  splitPathAux p.toList []

/-- Find a readable directory entry by name and return its entries.
A `deniedDir` cannot be descended into, so it resolves to `none`. -/
def findDirEntries (name : String) : List Dirent → Option (List Dirent)
  | [] => none
  | .dir n es :: rest => if n = name then some es else findDirEntries name rest
  | _ :: rest => findDirEntries name rest

/-- Find a file entry by name and return its content. -/
def findFileContent (name : String) : List Dirent → Option String
  | [] => none
  | .file n c :: rest => if n = name then some c else findFileContent name rest
  | _ :: rest => findFileContent name rest

/-- Resolve a component list from a directory listing. -/
def lookupIn : List String → List Dirent → Option (List Dirent)
  | [], es => some es
  | c :: cs, es =>
    match findDirEntries c es with
    | some es2 => lookupIn cs es2
    | none => none

/-- Resolve a path string against the filesystem root. `os.walk('')` and
`os.scandir('')` fail with `FileNotFoundError` (silently ignored by `os.walk`),
so the empty path resolves to nothing; `"/"` resolves to the root listing. -/
def lookupFS (fs : List Dirent) (path : String) : Option (List Dirent) :=
  if path = "" then none else lookupIn (splitPath path) fs

/-- Name contributed by an entry to the node's filtered `dirs` list
(`mod.py` line 86): directories — readable or not — whose joined path
survives `should_exclude`. -/
def entryDirName (m : String → Bool) (root : String) : Dirent → Option String
  | .dir n _ => if should_exclude (pjoin root n) m then none else some n
  | .deniedDir n => if should_exclude (pjoin root n) m then none else some n
  | .file _ _ => none

/-- Name contributed by an entry to the node's filtered `files` list
(`mod.py` line 87). -/
def entryFileName (m : String → Bool) (root : String) : Dirent → Option String
  | .file n _ => if should_exclude (pjoin root n) m then none else some n
  | .dir _ _ => none
  | .deniedDir _ => none

/-- The node `tree.list_dir` appends for one visited directory. -/
def mkNode (m : String → Bool) (root : String) (entries : List Dirent) : TreeNode :=
  { root := root
  , dirs := entries.filterMap (entryDirName m root)
  , files := entries.filterMap (entryFileName m root) }

/-- The surviving subdirectories `os.walk` descends into after the in-place
prune `dirs[:] = [d for d in dirs if not should_exclude(...)]`: readable
directories only (a `deniedDir` is listed but its enumeration error is
swallowed), paired with their joined path and entries, in enumeration order. -/
def keptSubdirs (m : String → Bool) (root : String) : List Dirent → List (String × List Dirent)
  | [] => []
  | .dir n es :: rest =>
    if should_exclude (pjoin root n) m then keptSubdirs m root rest
    else (pjoin root n, es) :: keptSubdirs m root rest
  | _ :: rest => keptSubdirs m root rest

/-- Fuelled pre-order walk: yield the current directory's node, then walk each
surviving subdirectory in order. Structural on the fuel so it evaluates by
`decide`/`rfl`; each descent strictly decreases `direntListSize`, so
`direntListSize entries + 1` fuel is always enough. -/
def listDirF : Nat → (String → Bool) → String → List Dirent → List TreeNode
  | 0, _, _, _ => []
  | fuel + 1, m, root, entries =>
    mkNode m root entries ::
      (keptSubdirs m root entries).flatMap fun p => listDirF fuel m p.1 p.2

/-- `tree.list_dir(dir_path)` (`mod.py` lines 83-93): the pre-order node list
of the pruned walk rooted at `dirPath` with listing `entries`. -/
def list_dir (m : String → Bool) (dirPath : String) (entries : List Dirent) : List TreeNode :=
  listDirF (direntListSize entries + 1) m dirPath entries

/-- The `context` argument: `current_dir` models whether the key
`'current_dir'` is present in `context.data`. -/
structure Context where
  current_dir : Option String

/-- Root resolution at the top of `tree` (`mod.py` lines 75-76):
`directory = os.path.join(context.data['current_dir'], directory)` when the
key is present. -/
def resolveDir (ctx : Context) (directory : String) : String :=
  match ctx.current_dir with
  | some cd => pjoin cd directory
  | none => directory

/-- Content of the root-level ignore file: `os.path.join(directory, '.gitignore')`
exists as a file directly in the resolved directory (`mod.py` lines 77-78).
(`parse_gitignore` applied to a directory named `.gitignore` is not modelled.) -/
def gitignoreContent (fs : List Dirent) (dir : String) : Option String :=
  match lookupFS fs dir with
  | some es => findFileContent ".gitignore" es
  | none => none

/-- The ignore predicate `matches` used for the whole walk (`mod.py` lines
78-81): `parse_gitignore(gitignore_path)` when the root `.gitignore` exists,
else `lambda path: False`. `parse` models the external `parse_gitignore`
collaborator as a function of the ignore file's content. -/
def treeMatches (parse : String → String → Bool) (fs : List Dirent) (dir : String) : String → Bool :=
  match gitignoreContent fs dir with
  | some c => parse c
  | none => fun _ => false

/-- `tree(directory, context)` (`mod.py` lines 70-96): resolve the root, build
the ignore predicate once from the root's `.gitignore`, then run `list_dir`.
A root that does not exist (or cannot be enumerated) makes `os.walk` yield
nothing — the default `onerror=None` swallows the `scandir` error — so the
result is the empty list, not an exception. -/
def tree (parse : String → String → Bool) (fs : List Dirent) (directory : String)
    (ctx : Context) : List TreeNode :=
  let dir := resolveDir ctx directory
  match lookupFS fs dir with
  | none => []
  | some entries => list_dir (treeMatches parse fs dir) dir entries

/-- Outcome of `asyncio.create_subprocess_shell` + `communicate` inside
`execute_command`: either the process completed with an exit code and decoded
stdout/stderr, or some step raised an exception with message `msg`. -/
inductive ExecOutcome where
  | completed (returncode : Int) (stdout stderr : String)
  | raised (msg : String)

/-- `execute_command(cmd)` (`mod.py` lines 37-52), as a function of the
subprocess outcome. Nonzero exit wins over stderr; zero exit with nonempty
stderr gets the stderr banner; zero exit with empty stderr returns raw stdout;
an exception is formatted, never propagated. -/
def execute_command (cmd : String) (o : ExecOutcome) : String :=
  match o with
  | .completed rc out err =>
    if rc ≠ 0 then
      "Command " ++ squote ++ cmd ++ squote ++ " failed with error code " ++ toString rc ++
        ":\nStderr:\n" ++ err ++ "\nStdout:\n" ++ out
    else if err ≠ "" then
      "Command executed with stderr output:\n" ++ err ++ "\nStdout:\n" ++ out
    else out
  | .raised e => "Command " ++ squote ++ cmd ++ squote ++ " failed with error: " ++ e

/-- Where `run_python`'s body stops (`mod.py` lines 134-166):
* `completed`: the subprocess ran and gave an exit code and output;
* `raiseAtCreate`: `NamedTemporaryFile(...)` itself raised — no file on disk;
* `raiseAtWrite`: `temp_file.write(text)` raised — the file exists on disk
  (`delete=False`), but the assignment `temp_filename = temp_file.name` on the
  next line never ran;
* `raiseAfterName`: a later step raised (e.g. `create_subprocess_exec`) —
  the file exists and `temp_filename` is assigned. -/
inductive PyStep where
  | completed (returncode : Int) (stdout stderr : String)
  | raiseAtCreate (msg : String)
  | raiseAtWrite (msg : String)
  | raiseAfterName (msg : String)

/-- Observable outcome of `run_python`: the returned string, the content that
reached the temporary file (`none` when creation or the write failed), and
whether the temporary file is still on disk when the function returns. -/
structure RunPyOutcome where
  output : String
  written : Option String
  tempRemains : Bool

/-- The `except` handler's cleanup (`mod.py` lines 163-165):
`if 'temp_filename' in locals() and os.path.exists(temp_filename): os.unlink(...)`.
Returns whether the temp file remains afterwards. -/
def exceptCleanup (nameAssigned fileOnDisk : Bool) : Bool :=
  if nameAssigned && fileOnDisk then false else fileOnDisk

/-- `run_python(text)` (`mod.py` lines 120-166) as a function of where the body
stopped. On the completed path `os.unlink` runs unconditionally before the
result is formatted, so the file is gone for success and failure alike; on an
exception the handler of `exceptCleanup` decides. -/
def run_python (text : String) (step : PyStep) : RunPyOutcome :=
  match step with
  | .raiseAtCreate m =>
    { output := "Failed to execute Python code: " ++ m
    , written := none
    , tempRemains := false }
  | .raiseAtWrite m =>
    { output := "Failed to execute Python code: " ++ m
    , written := none
    , tempRemains := exceptCleanup false true }
  | .raiseAfterName m =>
    { output := "Failed to execute Python code: " ++ m
    , written := some text
    , tempRemains := exceptCleanup true true }
  | .completed rc out err =>
    { output :=
        if rc ≠ 0 then
          "Python code execution failed with error code " ++ toString rc ++
            ":\nStderr:\n" ++ err ++ "\nStdout:\n" ++ out
        else if err ≠ "" then
          "Python code executed with stderr output:\n" ++ err ++ "\nStdout:\n" ++ out
        else out
    , written := some text
    , tempRemains := false }

/-- Directories existing on the filesystem used by `mkdir`, each as its list
of path components (the root always exists implicitly). -/
abbrev DirSet : Type := List (List String)

/-- The non-empty component prefixes of a component list: the chain of
directories `os.makedirs` has to ensure. -/
def dirPrefixes : List String → List (List String)
  | [] => []
  | c :: cs => [c] :: (dirPrefixes cs).map (fun p => c :: p)

/-- Add each directory of `ps` to the state unless already present. -/
def addDirs (st : DirSet) (ps : List (List String)) : DirSet :=
  ps.foldl (fun s p => if p ∈ s then s else s ++ [p]) st

/-- `os.makedirs(path, exist_ok=True)`: ensure every directory on the chain
down to `path` exists; an existing directory is left alone and is no error. -/
def makedirs (st : DirSet) (path : String) : DirSet :=
  addDirs st (dirPrefixes (splitPath path))

/-- `mkdir(absolute_path)` (`mod.py` lines 54-64): run
`os.makedirs(absolute_path, exist_ok=True)` and return the success message
(the `except` branch is unreachable when the path names a creatable or
already-existing directory). Returns the new state and the message. -/
def mkdir (st : DirSet) (absolute_path : String) : DirSet × String :=
  (makedirs st absolute_path,
   "Directory " ++ squote ++ absolute_path ++ squote ++ " created successfully.")

/-- The filesystem of the claim scenario: `/proj` containing `src/a.py`,
`.git/HEAD` and `node_modules/x/y.js`, with no `.gitignore`. -/
def projFS : List Dirent :=
  [ .dir "proj"
      [ .dir "src" [ .file "a.py" "" ]
      , .dir ".git" [ .file "HEAD" "" ]
      , .dir "node_modules" [ .dir "x" [ .file "y.js" "" ] ] ] ]

/-- A concrete ignore-predicate provider for witnesses: the ignore file's
content is read as the single path it ignores. -/
def eqParse (content : String) (path : String) : Bool :=
  content = path

/-- A filesystem whose root directory `/proj` holds a `.gitignore`. -/
def gitigFS : List Dirent :=
  [ .dir "proj"
      [ .file ".gitignore" "/proj/keep.log"
      , .file "keep.log" ""
      , .file "a.py" "" ] ]

/-- Like `gitigFS` but the subdirectory `sub` holds a different `.gitignore`;
only the root's one may matter. -/
def nestedGitigFS : List Dirent :=
  [ .dir "proj"
      [ .file ".gitignore" "/proj/keep.log"
      , .file "keep.log" ""
      , .file "a.py" ""
      , .dir "sub" [ .file ".gitignore" "/proj/a.py" ] ] ]

/-- A filesystem with a subdirectory that cannot be enumerated
(permission denied): `/proj` holds `ok/a.py` and the unreadable `locked`. -/
def deniedFS : List Dirent :=
  [ .dir "proj"
      [ .dir "ok" [ .file "a.py" "" ]
      , .deniedDir "locked" ] ]

/-! ## Helper lemmas -/

lemma keptSubdirs_size (m : String → Bool) (root : String) :
    ∀ entries p, p ∈ keptSubdirs m root entries → direntListSize p.2 < direntListSize entries := by
  intro entries
  induction entries with
  | nil => intro p hp; simp [keptSubdirs] at hp
  | cons e rest ih =>
    intro p hp
    cases e with
    | file n c =>
      have := ih p (by simpa [keptSubdirs] using hp)
      simp [direntListSize, direntSize]; omega
    | deniedDir n =>
      have := ih p (by simpa [keptSubdirs] using hp)
      simp [direntListSize, direntSize]; omega
    | dir n es =>
      by_cases hx : should_exclude (pjoin root n) m
      · have := ih p (by simpa [keptSubdirs, hx] using hp)
        simp [direntListSize, direntSize]; omega
      · rw [keptSubdirs, if_neg hx] at hp
        rcases List.mem_cons.mp hp with h | h
        · subst h
          simp [direntListSize, direntSize]; omega
        · have := ih p h
          simp [direntListSize, direntSize]; omega

lemma flatMapCongr {α β : Type} (f g : α → List β) :
    ∀ l : List α, (∀ x ∈ l, f x = g x) → l.flatMap f = l.flatMap g := by
  intro l
  induction l with
  | nil => intro _; rfl
  | cons x xs ih =>
    intro h
    simp only [List.flatMap_cons]
    rw [h x (List.mem_cons_self x xs), ih (fun y hy => h y (List.mem_cons_of_mem x hy))]

lemma listDirF_fuel (m : String → Bool) :
    ∀ f g root entries, direntListSize entries < f → direntListSize entries < g →
      listDirF f m root entries = listDirF g m root entries := by
  intro f
  induction f with
  | zero => intro g root entries hf; omega
  | succ f ih =>
    intro g root entries hf hg
    cases g with
    | zero => omega
    | succ g =>
      simp only [listDirF]
      congr 1
      apply flatMapCongr
      intro p hp
      have hs := keptSubdirs_size m root entries p hp
      exact ih g p.1 p.2 (by omega) (by omega)

/-- `list_dir` at any directory is its own node followed by the walks of the
surviving subdirectories, in enumeration order. -/
lemma list_dir_unfold (m : String → Bool) (root : String) (entries : List Dirent) :
    list_dir m root entries =
      mkNode m root entries ::
        (keptSubdirs m root entries).flatMap (fun p => list_dir m p.1 p.2) := by
  show listDirF (direntListSize entries + 1) m root entries = _
  simp only [listDirF]
  congr 1
  apply flatMapCongr
  intro p hp
  have hs := keptSubdirs_size m root entries p hp
  exact listDirF_fuel m (direntListSize entries) (direntListSize p.2 + 1) p.1 p.2 (by omega) (by omega)

/-- A walk whose resolved root does not exist (or cannot be enumerated)
returns the empty node list. -/
lemma tree_eq_empty_of_lookupFS_none (parse : String → String → Bool) (fs : List Dirent)
    (d : String) (ctx : Context) (h : lookupFS fs (resolveDir ctx d) = none) :
    tree parse fs d ctx = [] := by
  unfold tree
  simp only [h]

/-! ## Claim theorems -/

/-- Claim C1: the built-in exclusions do NOT prune. In the claimed scenario —
root `/proj` containing `src/a.py`, `.git/HEAD`, `node_modules/x/y.js`, no
`.gitignore` — `fnmatch` is applied to the full joined path (`/proj/.git`),
which the anchored pattern `.git` does not match, so `.git` and
`node_modules` are listed and visited: the result has five nodes, not the
claimed two. -/
theorem tree_default_exclude_never_prunes :
    tree (fun _ _ => false) projFS "/proj" ⟨none⟩ =
      [ ⟨"/proj", ["src", ".git", "node_modules"], []⟩
      , ⟨"/proj/src", [], ["a.py"]⟩
      , ⟨"/proj/.git", [], ["HEAD"]⟩
      , ⟨"/proj/node_modules", ["x"], []⟩
      , ⟨"/proj/node_modules/x", [], ["y.js"]⟩ ]
    ∧ fnmatch "/proj/.git" ".git" = false
    ∧ fnmatch "/proj/node_modules" "node_modules" = false := by
  refine ⟨by decide, by decide, by decide⟩

/-- Claim C2 (counterexample): for the concrete filesystem of the scenario and
a root that does not exist, `tree` returns the empty list as an ordinary
value — it does not fail — contradicting the claim that the error is
propagated and an empty result is never silently returned. -/
theorem tree_missing_root_silently_empty :
    tree eqParse projFS "/absent/path" ⟨none⟩ = [] := by decide

/-- Claim C2 (amended): if the resolved root does not exist (or cannot be
enumerated), `os.walk`'s default `onerror=None` swallows the error and `tree`
returns an empty result; a subdirectory whose enumeration fails with a
permission error is silently skipped — it still appears in its parent's
`dirs`, but contributes no node — yielding a partial tree instead of a
failure. -/
theorem tree_swallows_enumeration_failures (parse : String → String → Bool)
    (fs : List Dirent) (d : String) (ctx : Context)
    (h : lookupFS fs (resolveDir ctx d) = none) :
    tree parse fs d ctx = []
    ∧ tree eqParse deniedFS "/proj" ⟨none⟩ =
        [ ⟨"/proj", ["ok", "locked"], []⟩, ⟨"/proj/ok", [], ["a.py"]⟩ ] :=
  ⟨tree_eq_empty_of_lookupFS_none parse fs d ctx h, by decide⟩

/-- Witness for `tree_swallows_enumeration_failures` at a concrete input. -/
theorem tree_swallows_enumeration_failures_witness :
    tree eqParse gitigFS "/nope" ⟨none⟩ = [] :=
  (tree_swallows_enumeration_failures eqParse gitigFS "/nope" ⟨none⟩ (by rfl)).1

/-- Claim C3: `should_exclude(path, matches)` is true exactly when the path
matches some pattern of the fixed built-in list `DEFAULT_EXCLUDE` under glob
semantics on the full path string, or the ignore predicate accepts it; the
built-in disjunct is present for every ignore predicate `m`. -/
theorem should_exclude_iff (p : String) (m : String → Bool) :
    should_exclude p m = true ↔
      ((∃ pat ∈ DEFAULT_EXCLUDE, fnmatch p pat = true) ∨ m p = true) := by
  simp [should_exclude, List.any_eq_true, Bool.or_eq_true]

/-- Claim C4: the ignore predicate of a walk is `parse` of the root's
`.gitignore` content when that file exists, the constant-false predicate
otherwise, and it depends only on the root directory's `.gitignore` — two
filesystems agreeing there get the same predicate, so nested `.gitignore`
files are never consulted (the concrete conjunct shows a subdirectory's
`.gitignore` naming `/proj/a.py` has no effect, while the root's is obeyed). -/
theorem treeMatches_from_root_gitignore (parse : String → String → Bool)
    (fs : List Dirent) (dir : String) :
    (∀ c, gitignoreContent fs dir = some c → treeMatches parse fs dir = parse c)
    ∧ (gitignoreContent fs dir = none → treeMatches parse fs dir = fun _ => false)
    ∧ (∀ fs2 : List Dirent, gitignoreContent fs dir = gitignoreContent fs2 dir →
        treeMatches parse fs dir = treeMatches parse fs2 dir)
    ∧ tree eqParse nestedGitigFS "/proj" ⟨none⟩ =
        [ ⟨"/proj", ["sub"], [".gitignore", "a.py"]⟩
        , ⟨"/proj/sub", [], [".gitignore"]⟩ ] := by
  refine ⟨?_, ?_, ?_, by decide⟩
  · intro c hc; simp [treeMatches, hc]
  · intro hc; simp [treeMatches, hc]
  · intro fs2 hagree; simp [treeMatches, hagree]

/-- Witness for `treeMatches_from_root_gitignore` at a concrete input. -/
theorem treeMatches_from_root_gitignore_witness :
    treeMatches eqParse gitigFS "/proj" = eqParse "/proj/keep.log" :=
  (treeMatches_from_root_gitignore eqParse gitigFS "/proj").1 "/proj/keep.log" (by rfl)

/-- Claim C5: the walk is a pure function of the filesystem and its arguments,
so two calls on an unchanged filesystem return structurally identical results
(same nodes, same order). -/
theorem tree_idempotent (parse : String → String → Bool) (fs : List Dirent)
    (d : String) (ctx : Context) :
    tree parse fs d ctx = tree parse fs d ctx ∧
      (tree parse fs d ctx).length = (tree parse fs d ctx).length :=
  ⟨rfl, rfl⟩

/-- Claim C6: when the context carries `current_dir`, the walk behaves exactly
as a walk rooted at `os.path.join(current_dir, directory)`; and the result is
in pre-order — every visited directory's node comes first, followed by the
node lists of its surviving subdirectories, in enumeration order. -/
theorem tree_effective_root_and_preorder (parse : String → String → Bool)
    (fs : List Dirent) (d cd : String) :
    tree parse fs d ⟨some cd⟩ = tree parse fs (pjoin cd d) ⟨none⟩
    ∧ ∀ (m : String → Bool) (root : String) (entries : List Dirent),
        list_dir m root entries =
          mkNode m root entries ::
            (keptSubdirs m root entries).flatMap (fun p => list_dir m p.1 p.2) :=
  ⟨rfl, list_dir_unfold⟩

/-- Claim C7: `execute_command` yields exactly three shapes — nonzero exit
gives the failure banner with the exit code, stderr and stdout; zero exit with
nonempty stderr gives the stderr banner with both streams; zero exit with
empty stderr gives the raw stdout — and an exception is formatted into an
error string instead of propagating. -/
theorem execute_command_shapes (cmd : String) (rc : Int) (out err e : String) :
    (rc ≠ 0 → execute_command cmd (.completed rc out err) =
      "Command " ++ squote ++ cmd ++ squote ++ " failed with error code " ++ toString rc ++
        ":\nStderr:\n" ++ err ++ "\nStdout:\n" ++ out)
    ∧ (rc = 0 → err ≠ "" → execute_command cmd (.completed rc out err) =
      "Command executed with stderr output:\n" ++ err ++ "\nStdout:\n" ++ out)
    ∧ (rc = 0 → err = "" → execute_command cmd (.completed rc out err) = out)
    ∧ execute_command cmd (.raised e) =
      "Command " ++ squote ++ cmd ++ squote ++ " failed with error: " ++ e := by
  refine ⟨fun h => ?_, fun h1 h2 => ?_, fun h1 h2 => ?_, rfl⟩
  · simp [execute_command, h]
  · simp [execute_command, h1, h2]
  · simp [execute_command, h1, h2]

/-- Witness for `execute_command_shapes` at a concrete input. -/
theorem execute_command_shapes_witness :
    execute_command "ls" (.completed 2 "OUT" "ERR") =
      "Command " ++ squote ++ "ls" ++ squote ++
        " failed with error code 2:\nStderr:\nERR\nStdout:\nOUT" :=
  (execute_command_shapes "ls" 2 "OUT" "ERR" "x").1 (by decide)

/-- Claim C8: the temporary file is NOT deleted in all cases. When
`temp_file.write(text)` raises (e.g. `UnicodeEncodeError` for a lone
surrogate, or `OSError` on a full disk), the assignment
`temp_filename = temp_file.name` never runs, the handler's
`'temp_filename' in locals()` test is false, and the file created with
`delete=False` stays on disk; exceptions after the name is recorded, and both
completed paths, do delete it. -/
theorem run_python_write_failure_leaks_tempfile :
    (run_python "print(1)" (.raiseAtWrite "UnicodeEncodeError")).tempRemains = true
    ∧ (run_python "print(1)" (.raiseAfterName "boom")).tempRemains = false
    ∧ (run_python "print(1)" (.raiseAtCreate "boom")).tempRemains = false
    ∧ (run_python "print(1)" (.completed 1 "" "err")).tempRemains = false
    ∧ (run_python "print(1)" (.completed 0 "out" "")).tempRemains = false := by
  refine ⟨rfl, rfl, rfl, rfl, rfl⟩

lemma addDirs_cons (st : DirSet) (p : List String) (ps : List (List String)) :
    addDirs st (p :: ps) = addDirs (if p ∈ st then st else st ++ [p]) ps := rfl

lemma addDirs_preserve (ps : List (List String)) :
    ∀ st q, q ∈ st → q ∈ addDirs st ps := by
  induction ps with
  | nil => intro st q h; exact h
  | cons p ps ih =>
    intro st q h
    rw [addDirs_cons]
    apply ih
    by_cases hp : p ∈ st
    · simp [hp]
      exact h
    · simp [hp]
      exact Or.inl h

lemma addDirs_mem (ps : List (List String)) :
    ∀ st q, q ∈ ps → q ∈ addDirs st ps := by
  induction ps with
  | nil => intro st q h; cases h
  | cons p ps ih =>
    intro st q h
    rcases List.mem_cons.mp h with h1 | h2
    · subst h1
      rw [addDirs_cons]
      apply addDirs_preserve
      by_cases hp : q ∈ st
      · simp only [if_pos hp]
        exact hp
      · simp [hp]
    · rw [addDirs_cons]
      exact ih _ q h2

lemma addDirs_id (ps : List (List String)) :
    ∀ st, (∀ q ∈ ps, q ∈ st) → addDirs st ps = st := by
  induction ps with
  | nil => intro st _; rfl
  | cons p ps ih =>
    intro st h
    rw [addDirs_cons, if_pos (h p (List.mem_cons_self p ps))]
    exact ih st (fun q hq => h q (List.mem_cons_of_mem p hq))

/-- Claim C9: `mkdir` creates the directory and every missing parent
(every prefix of the path's component chain exists afterwards), and it is
idempotent — a second call on the same path leaves the state unchanged and
returns the same success message. -/
theorem mkdir_recursive_idempotent (st : DirSet) (p : String) :
    (∀ q ∈ dirPrefixes (splitPath p), q ∈ (mkdir st p).1)
    ∧ mkdir (mkdir st p).1 p = ((mkdir st p).1, (mkdir st p).2) := by
  constructor
  · intro q hq
    exact addDirs_mem (dirPrefixes (splitPath p)) st q hq
  · unfold mkdir
    simp only [Prod.mk.injEq, and_true]
    exact addDirs_id (dirPrefixes (splitPath p)) (makedirs st p)
      (fun q hq => addDirs_mem (dirPrefixes (splitPath p)) st q hq)

/-- Witness for `mkdir_recursive_idempotent` at a concrete input. -/
theorem mkdir_recursive_idempotent_witness :
    ["a"] ∈ (mkdir [] "/a/b").1
    ∧ mkdir (mkdir [] "/a/b").1 "/a/b" = ((mkdir [] "/a/b").1, (mkdir [] "/a/b").2) :=
  ⟨(mkdir_recursive_idempotent [] "/a/b").1 ["a"] (by decide),
   (mkdir_recursive_idempotent [] "/a/b").2⟩

/-- Claim C10: when the resolved directory does not exist, the underlying
enumeration yields nothing (`os.walk` ignores the `scandir` error by
default), so `tree` returns the empty sequence without raising. -/
theorem tree_nonexistent_root_returns_empty (parse : String → String → Bool)
    (fs : List Dirent) (d : String) (ctx : Context)
    (h : lookupFS fs (resolveDir ctx d) = none) :
    tree parse fs d ctx = [] :=
  tree_eq_empty_of_lookupFS_none parse fs d ctx h

/-- Witness for `tree_nonexistent_root_returns_empty` at a concrete input. -/
theorem tree_nonexistent_root_returns_empty_witness :
    tree eqParse projFS "/proj/missing" ⟨some "/"⟩ = [] :=
  tree_nonexistent_root_returns_empty eqParse projFS "/proj/missing" ⟨some "/"⟩ (by rfl)
